import Mathlib

/-!
Shallow embedding of the Aktivenabrechnung data model from `aktive.py`
(`Position`, `Abrechnung`, `HTMLPrinter`) and of the helper functions of
the `tools` module that the claims need.

Modelling conventions:
* Python `float` amounts are modelled as rationals (`ℚ`).
* A Python value handed to a setter is modelled by `PyVal` (a string, an
  integer, a float, a `datetime.date`, or `None`).  The textual form of
  the float case is abstracted (see `ratRepr`); no claim depends on it.
* The built-in coercions `int(...)`, `float(...)`, `str(...)` are
  modelled by `pyInt?`, `pyFloat?`, `pyStr`.  The fallible ones return
  `Except`, so that a raised `ValueError`/`TypeError` is visible; the
  exotic corners of `float(...)` string parsing (exponents, infinities)
  are not modelled, but every string used in a theorem below is parsed
  exactly as Python parses it.
* `str.split(sep)` for a one-character separator is modelled by
  `splitChar`, Python slicing by `List.take`/`List.drop`.
-/

/-- A Gregorian calendar date, as `datetime.date` stores it. -/
structure PyDate where
  year : Int
  month : Int
  day : Int
deriving DecidableEq, Repr

/-- Gregorian leap-year rule, as used by `datetime.date`. -/
def isLeap (y : Int) : Bool :=
  y % 4 == 0 && (y % 100 != 0 || y % 400 == 0)

/-- Number of days of month `m` in year `y` (`datetime` calendar). -/
def daysInMonth (y m : Int) : Int :=
  if m = 2 then (if isLeap y then 29 else 28)
  else if m = 4 ∨ m = 6 ∨ m = 9 ∨ m = 11 then 30
  else 31

/-- `datetime.date(y, m, d)`: `some` date on valid input, `none` when the
constructor would raise `ValueError`. -/
def PyDate.make (y m d : Int) : Option PyDate :=
  if 1 ≤ y ∧ y ≤ 9999 ∧ 1 ≤ m ∧ m ≤ 12 ∧ 1 ≤ d ∧ d ≤ daysInMonth y m then
    some ⟨y, m, d⟩
  else
    Option.none

/-- A Python value that may be passed to one of the setters. -/
inductive PyVal where
  | str (s : String)
  | int (n : Int)
  | float (q : ℚ)
  | date (d : PyDate)
  | none
deriving DecidableEq, Repr

/-- The decimal digit character for `d < 10`. -/
def digitChar (d : Nat) : Char := Char.ofNat (48 + d)

/-- Fuel-driven decimal digit expansion (most significant first). -/
def natCharsAux : Nat → Nat → List Char
  | 0, _ => []
  | fuel + 1, n =>
    if n < 10 then [digitChar n]
    else natCharsAux fuel (n / 10) ++ [digitChar (n % 10)]

/-- The decimal digits of `n`, most significant first. -/
def natChars (n : Nat) : List Char := natCharsAux (n + 1) n

/-- `str(n)` for a nonnegative integer. -/
def natRepr (n : Nat) : String := String.mk (natChars n)

/-- `str(n)` for a Python integer. -/
def intRepr (n : Int) : String :=
  if n < 0 then "-" ++ natRepr n.natAbs else natRepr n.toNat

/-- Abstraction of `str(float)`.  Python always renders a float with a
non-digit character inside (a point or an exponent); this rendering
keeps that property, which is all the theorems below rely on. -/
def ratRepr (q : ℚ) : String := intRepr q.num ++ "/" ++ natRepr q.den

/-- `n` padded with leading zeros to width `w` (for ISO dates). -/
def padRepr (w : Nat) (n : Int) : String :=
  String.mk (List.replicate (w - (natRepr n.toNat).length) '0') ++ natRepr n.toNat

/-- `str(value)` on a `PyVal`.  `str(date)` is the ISO form. -/
def pyStr : PyVal → String
  | .str s => s
  | .int n => intRepr n
  | .float q => ratRepr q
  | .date d => padRepr 4 d.year ++ "-" ++ padRepr 2 d.month ++ "-" ++ padRepr 2 d.day
  | .none => "None"

/-- Python whitespace test for the characters `int(...)` strips. -/
def isPySpace (c : Char) : Bool :=
  c == ' ' || c == '\t' || c == '\n' || c == '\r'

/-- Strip leading and trailing whitespace from a character list. -/
def stripChars (l : List Char) : List Char :=
  ((l.dropWhile isPySpace).reverse.dropWhile isPySpace).reverse

/-- Numeric value of a list of decimal digit characters. -/
def digitsVal (l : List Char) : Nat :=
  l.foldl (fun a c => a * 10 + (c.toNat - 48)) 0

/-- `int(s)` on a string: optional sign, then a nonempty run of decimal
digits, surrounded by optional whitespace; anything else raises. -/
def pyIntOfChars (l : List Char) : Except String Int :=
  let t := stripChars l
  match t with
  | '-' :: rest =>
    if rest ≠ [] ∧ rest.all Char.isDigit then .ok (-(digitsVal rest : Int))
    else .error "invalid literal for int"
  | '+' :: rest =>
    if rest ≠ [] ∧ rest.all Char.isDigit then .ok (digitsVal rest : Int)
    else .error "invalid literal for int"
  | _ =>
    if t ≠ [] ∧ t.all Char.isDigit then .ok (digitsVal t : Int)
    else .error "invalid literal for int"

/-- Truncation of a rational toward zero, as `int(float)` does. -/
def ratTrunc (q : ℚ) : Int :=
  if q.num < 0 then -((q.num.natAbs / q.den : Nat) : Int)
  else ((q.num.natAbs / q.den : Nat) : Int)

/-- The coercion `int(value)`, raising on uncoercible input. -/
def pyInt? : PyVal → Except String Int
  | .int n => .ok n
  | .float q => .ok (ratTrunc q)
  | .str s => pyIntOfChars s.data
  | .date _ => .error "int() argument cannot be a date"
  | .none => .error "int() argument cannot be None"

/-- `s.split(sep)` for a one-character separator `sep`. -/
def splitChar (sep : Char) : List Char → List (List Char)
  | [] => [[]]
  | c :: rest =>
    match splitChar sep rest with
    | [] => [[c]]
    | h :: t => if c = sep then [] :: h :: t else (c :: h) :: t

/-- `float(s)` on a string: optional sign, then decimal digits with an
optional decimal point; exponents and named constants are not modelled. -/
def pyFloatOfChars (l : List Char) : Except String ℚ :=
  let t := stripChars l
  let signed : Bool × List Char :=
    match t with
    | '-' :: r => (true, r)
    | '+' :: r => (false, r)
    | _ => (false, t)
  let mag : Option ℚ :=
    match splitChar '.' signed.2 with
    | [ip] =>
      if ip ≠ [] ∧ ip.all Char.isDigit then some (digitsVal ip : ℚ) else Option.none
    | [ip, fp] =>
      if (ip ++ fp) ≠ [] ∧ ip.all Char.isDigit ∧ fp.all Char.isDigit then
        some ((digitsVal ip : ℚ) + (digitsVal fp : ℚ) / ((10 : ℚ) ^ fp.length))
      else Option.none
    | _ => Option.none
  match mag with
  | some q => .ok (if signed.1 then -q else q)
  | Option.none => .error "could not convert string to float"

/-- The coercion `float(value)`, raising on uncoercible input. -/
def pyFloat? : PyVal → Except String ℚ
  | .float q => .ok q
  | .int n => .ok (n : ℚ)
  | .str s => pyFloatOfChars s.data
  | .date _ => .error "float() argument cannot be a date"
  | .none => .error "float() argument cannot be None"

instance {ε α : Type} [DecidableEq ε] [DecidableEq α] : DecidableEq (Except ε α) :=
  fun a b =>
    match a, b with
    | .ok x, .ok y =>
      match decEq x y with
      | isTrue h => isTrue (congrArg Except.ok h)
      | isFalse h => isFalse (fun hh => h (Except.ok.inj hh))
    | .error x, .error y =>
      match decEq x y with
      | isTrue h => isTrue (congrArg Except.error h)
      | isFalse h => isFalse (fun hh => h (Except.error.inj hh))
    | .ok _, .error _ => isFalse (fun hh => Except.noConfusion hh)
    | .error _, .ok _ => isFalse (fun hh => Except.noConfusion hh)

/-- `true` exactly on the `.error` case (a raised exception). -/
def raises {α : Type} (e : Except String α) : Bool :=
  match e with
  | .error _ => true
  | .ok _ => false

/-- One line item of a settlement (`class Position`), with its four
stored attributes `_name`, `_unitcount`, `_unitprice`, `_value`. -/
structure Position where
  name : String
  unitcount : Int
  unitprice : ℚ
  value : ℚ
deriving DecidableEq, Repr

namespace Position

/-- `Position.getvalue`: the derived total; a nonzero unit price
overrides the stored value. -/
def getvalue (p : Position) : ℚ :=
  if p.unitprice ≠ 0 then p.unitprice * (p.unitcount : ℚ) else p.value

/-- `Position.getincome`: `max(0.0, value)`. -/
def getincome (p : Position) : ℚ := max 0 p.getvalue

/-- `Position.getcost`: `max(0.0, value * -1)`. -/
def getcost (p : Position) : ℚ := max 0 (p.getvalue * -1)

/-- `Position.__bool__`: name, unit price or stored value present. -/
def toBool (p : Position) : Bool :=
  decide (p.name ≠ "" ∨ p.unitprice ≠ 0 ∨ p.value ≠ 0)

/-- `Position.setname`: `self._name = str(value)`; never raises. -/
def setname (p : Position) (v : PyVal) : Position :=
  { p with name := pyStr v }

/-- `Position.setunitcount`: `self._unitcount = int(value)`, then clamp
up to 1.  Raises (leaving the object unchanged) when `int(...)` does. -/
def setunitcount (p : Position) (v : PyVal) : Except String Position :=
  (pyInt? v).map fun n => { p with unitcount := if n < 1 then 1 else n }

/-- `Position.setunitprice`: `self._unitprice = float(value)`. -/
def setunitprice (p : Position) (v : PyVal) : Except String Position :=
  (pyFloat? v).map fun q => { p with unitprice := q }

/-- `Position.setvalue`: `self._value = float(value)`. -/
def setvalue (p : Position) (v : PyVal) : Except String Position :=
  (pyFloat? v).map fun q => { p with value := q }

/-- `Position.setminusvalue`: `self._value = float(value) * -1`. -/
def setminusvalue (p : Position) (v : PyVal) : Except String Position :=
  (pyFloat? v).map fun q => { p with value := q * -1 }

/-- `Position()` with all-default arguments. -/
def mkDefault : Position := ⟨"", 1, 0, 0⟩

/-- `Position.__init__`: runs the four setters on the given arguments;
an exception in any setter propagates. -/
def init (n c pr vl : PyVal) : Except String Position :=
  (setunitcount (setname ⟨"", 1, 0, 0⟩ n) c).bind fun p1 =>
    (setunitprice p1 pr).bind fun p2 => setvalue p2 vl

end Position

example : Position.init (.str "x") (.int 3) (.float (5/2)) (.int 0) =
    .ok ⟨"x", 3, 5/2, 0⟩ := rfl

example : Position.setunitcount Position.mkDefault (.str "abc") =
    .error "invalid literal for int" := by decide

example : pyInt? (.str " 42 ") = .ok 42 := by decide
example : pyInt? (.str "-7") = .ok (-7) := by decide
example : pyInt? (.str "3.5") = .error "invalid literal for int" := by decide
example : raises (pyFloat? (.str "3.5")) = false := by decide
example : pyFloat? (.str "abc") = .error "could not convert string to float" := by decide
example : splitChar '-' "2024-05-01".data = ["2024".data, "05".data, "01".data] := by decide
example : PyDate.make 2024 13 99 = Option.none := by decide
example : PyDate.make 2024 5 1 = some ⟨2024, 5, 1⟩ := by decide

namespace tools

/-- Modelled from the spec: `tools.cell` wraps its (already escaped)
content in a single HTML table-cell fragment; with no content it yields
an empty cell. -/
def cell (content : String := "") : String := "<td>" ++ content ++ "</td>"

/-- Modelled from the spec: `tools.euro` formats an amount as a Euro
string with two decimals; with `signed` a leading sign indicator is
added.  The exact glyphs are a formatting choice the spec leaves open;
no claim below depends on them. -/
def euro (q : ℚ) (signed : Bool := false) : String :=
  let cents : Nat := (Int.floor (|q| * 100 + 1 / 2)).toNat
  let sign := if q < 0 then "-" else if signed then "+" else ""
  sign ++ natRepr (cents / 100) ++ "," ++
    (if cents % 100 < 10 then "0" else "") ++ natRepr (cents % 100) ++ " €"

end tools

/-- Replacement text of one character under `html.escape` (with the
default `quote=True`). -/
def escapeChar (c : Char) : List Char :=
  if c = '&' then "&amp;".data
  else if c = '<' then "&lt;".data
  else if c = '>' then "&gt;".data
  else if c = Char.ofNat 34 then "&quot;".data
  else if c = Char.ofNat 39 then "&#x27;".data
  else [c]

/-- `html.escape(s)` from the Python standard library. -/
def escape (s : String) : String := String.mk ((s.data.map escapeChar).flatten)

/-- `"\t" * n` for a Python integer `n` (empty when `n` is negative). -/
def tabs (n : Int) : String := String.mk (List.replicate n.toNat '\t')

/-- `sep.join(parts)` (Python `str.join`). -/
def joinWith (sep : String) : List String → String
  | [] => ""
  | [x] => x
  | x :: y :: rest => x ++ sep ++ joinWith sep (y :: rest)

/-- `s * n` for a string (Python string repetition). -/
def sRep (s : String) : Nat → String
  | 0 => ""
  | n + 1 => s ++ sRep s n

namespace Position

/-- The list `out` built by `Position.htmlcells` before joining: name,
unit count (blank when no unit price is set), absolute unit price,
income, cost. -/
def htmlcellsList (p : Position) : List String :=
  [tools.cell (escape p.name),
   if p.unitprice ≠ 0 then tools.cell (intRepr p.unitcount) else tools.cell "",
   tools.cell (tools.euro |p.unitprice| true),
   tools.cell (tools.euro p.getincome true),
   tools.cell (tools.euro p.getcost true)]

/-- `Position.htmlcells`: the five cells joined line by line (joined
without separator when `indent` is negative), prefixed by the indent. -/
def htmlcells (p : Position) (indent : Int := 0) : String :=
  let joiner := if indent < 0 then "" else "\n" ++ tabs indent
  tabs indent ++ joinWith joiner (htmlcellsList p)

end Position

/-- `value.replace(" ", "")` as used by the IBAN setter. -/
def stripSpaces (s : String) : String :=
  String.mk (s.data.filter (fun c => c ≠ ' '))

/-- The settlement record (`class Abrechnung`): exactly 7 positions plus
user, project, donation and payment data. -/
structure Abrechnung where
  positions : Fin 7 → Position
  username : String
  usergroup : String
  projectname : String
  projectdate : Option PyDate
  donations : ℚ
  accountname : String
  iban : String
  ibanmode : Option Int
  sepamode : Option Int
  ibanknown : Bool

namespace Abrechnung

/-- `Abrechnung._POSITIONCOUNT`. -/
def POSITIONCOUNT : Nat := 7

/-- `Abrechnung._IBANSPACES = range(18, 0, -4)`. -/
def IBANSPACES : List Nat := [18, 14, 10, 6, 2]

/-- `Abrechnung()`: fresh record, all fields at their defaults. -/
def init : Abrechnung where
  positions := fun _ => Position.mkDefault
  username := ""
  usergroup := ""
  projectname := ""
  projectdate := Option.none
  donations := 0
  accountname := ""
  iban := ""
  ibanmode := Option.none
  sepamode := Option.none
  ibanknown := false

/-- `Abrechnung.setusername`. -/
def setusername (a : Abrechnung) (v : PyVal) : Abrechnung :=
  { a with username := pyStr v }

/-- `Abrechnung.setusergroup`. -/
def setusergroup (a : Abrechnung) (v : PyVal) : Abrechnung :=
  { a with usergroup := pyStr v }

/-- `Abrechnung.setprojectname`. -/
def setprojectname (a : Abrechnung) (v : PyVal) : Abrechnung :=
  { a with projectname := pyStr v }

/-- `Abrechnung.setprojectdate`: a `date` value is stored directly; any
other value is `str(...)`-ed, split on `-`, its first three parts passed
through `int(...)` and `date(...)`; any failure in that pipeline is
caught by the bare `except:` and clears the date. -/
def setprojectdate (a : Abrechnung) (v : PyVal) : Abrechnung :=
  match v with
  | .date d => { a with projectdate := some d }
  | _ =>
    let parts := splitChar '-' (pyStr v).data
    let r : Option PyDate := do
      let ys ← parts[0]?
      let ms ← parts[1]?
      let ds ← parts[2]?
      let y ← (pyIntOfChars ys).toOption
      let m ← (pyIntOfChars ms).toOption
      let d ← (pyIntOfChars ds).toOption
      PyDate.make y m d
    { a with projectdate := r }

/-- `Abrechnung.setdonations`: coerce to float, clamp negatives to 0;
raises (leaving the record unchanged) when `float(...)` does. -/
def setdonations (a : Abrechnung) (v : PyVal) : Except String Abrechnung :=
  (pyFloat? v).map fun q => { a with donations := if q < 0 then 0 else q }

/-- `Abrechnung.getincome`: loop over the 7 positions summing their
income, then add the donations. -/
def getincome (a : Abrechnung) : ℚ :=
  ((List.finRange 7).foldl (fun out i => out + (a.positions i).getincome) 0)
    + a.donations

/-- `Abrechnung.getcost`: loop over the 7 positions summing their cost. -/
def getcost (a : Abrechnung) : ℚ :=
  (List.finRange 7).foldl (fun out i => out + (a.positions i).getcost) 0

/-- `Abrechnung.gettotal`: loop over the 7 positions summing their
value, then add the donations. -/
def gettotal (a : Abrechnung) : ℚ :=
  ((List.finRange 7).foldl (fun out i => out + (a.positions i).getvalue) 0)
    + a.donations

/-- `Abrechnung.setaccountname`. -/
def setaccountname (a : Abrechnung) (v : PyVal) : Abrechnung :=
  { a with accountname := pyStr v }

/-- `Abrechnung.setaccountiban`: `str(...)` the input, drop every space,
store the result exactly when it is 20 characters of digits, otherwise
store the empty string. -/
def setaccountiban (a : Abrechnung) (v : PyVal) : Abrechnung :=
  let value := stripSpaces (pyStr v)
  if value.length = 20 ∧ value.data.all Char.isDigit then
    { a with iban := value }
  else
    { a with iban := "" }

/-- `out[:i] + " " + out[i:]` (one space insertion of the IBAN getter). -/
def insertSpace (l : List Char) (i : Nat) : List Char :=
  l.take i ++ ' ' :: l.drop i

/-- `Abrechnung.getaccountiban`: when `spaces` is requested and the
stored IBAN is longer than `_IBANSPACES[0] = 18`, insert a space at the
offsets 18, 14, 10, 6, 2 in this order. -/
def getaccountiban (a : Abrechnung) (spaces : Bool := true) : String :=
  let out := a.iban
  if spaces ∧ out.length > IBANSPACES.headD 0 then
    String.mk (IBANSPACES.foldl insertSpace out.data)
  else
    out

/-- `Abrechnung.__bool__`: some position is non-empty, or donations are
set. -/
def toBool (a : Abrechnung) : Bool :=
  ((List.finRange 7).any fun i => (a.positions i).toBool)
    || decide (a.donations ≠ 0)

/-- The record with position `i` replaced (the effect of mutating
`a.positions[i]` in place). -/
def withPosition (a : Abrechnung) (i : Fin 7) (p : Position) : Abrechnung :=
  { a with positions := Function.update a.positions i p }

end Abrechnung

namespace HTMLPrinter

/-- `HTMLPrinter._POSITIONCOUNT`. -/
def POSITIONCOUNT : Nat := 7

/-- The string `line` built for one table row by
`HTMLPrinter._fill_positions`: opening tag, index cell, either the
position's `htmlcells` at indent 5 plus two empty cells or seven empty
cells, closing tag. -/
def positionRow (input : Option Abrechnung) (index : Nat) : String :=
  let head := tabs 4 ++ "<tr>" ++ "\n" ++ tabs 5 ++ tools.cell (natRepr (index + 1)) ++ "\n"
  let middle :=
    match input with
    | some a =>
      if h : index < 7 then
        Position.htmlcells (a.positions ⟨index, h⟩) 5 ++ "\n"
          ++ tabs 5 ++ sRep (tools.cell "") 2 ++ "\n"
      else
        tabs 5 ++ sRep (tools.cell "") 7 ++ "\n"
    | Option.none => tabs 5 ++ sRep (tools.cell "") 7 ++ "\n"
  head ++ middle ++ tabs 4 ++ "</tr>" ++ "\n"

/-- `HTMLPrinter._fill_positions`: ignore the section text, emit one
table row per position slot and join them. -/
def fill_positions (text : String) (input : Option Abrechnung) : String :=
  String.join ((List.range POSITIONCOUNT).map (positionRow input))

end HTMLPrinter

/-- A Python setter call on a `Position` (for reasoning about arbitrary
setter sequences); a call whose coercion raises leaves the object
unchanged, as the exception fires before the attribute assignment. -/
inductive SetterCall where
  | name (v : PyVal)
  | unitcount (v : PyVal)
  | unitprice (v : PyVal)
  | value (v : PyVal)
  | minusvalue (v : PyVal)

namespace Position

/-- Apply one setter call, keeping the old state when it raises. -/
def applySetter (p : Position) : SetterCall → Position
  | .name v => p.setname v
  | .unitcount v => match p.setunitcount v with | .ok q => q | .error _ => p
  | .unitprice v => match p.setunitprice v with | .ok q => q | .error _ => p
  | .value v => match p.setvalue v with | .ok q => q | .error _ => p
  | .minusvalue v => match p.setminusvalue v with | .ok q => q | .error _ => p

/-- Apply a sequence of setter calls in order. -/
def applySetters (p : Position) (calls : List SetterCall) : Position :=
  calls.foldl applySetter p

end Position

/-- C2: for every `Position`, a nonzero unit price makes the value
getter return `unitprice * unitcount` and puts the unit count into the
second `htmlcells` cell; a zero unit price makes the value getter
return the stored raw value and leaves that cell blank. -/
theorem claim_C2 (p : Position) :
    (p.unitprice ≠ 0 →
      p.getvalue = p.unitprice * (p.unitcount : ℚ) ∧
      (Position.htmlcellsList p)[1]? = some (tools.cell (intRepr p.unitcount))) ∧
    (p.unitprice = 0 →
      p.getvalue = p.value ∧
      (Position.htmlcellsList p)[1]? = some (tools.cell "")) := by
  constructor <;> intro h <;>
    simp [Position.getvalue, Position.htmlcellsList, h]

/-- Witness for C2 at the concrete positions `⟨"a", 2, 3, 9⟩` and
`⟨"a", 2, 0, 9⟩`. -/
theorem claim_C2_witness :
    (((3 : ℚ) ≠ 0) ∧
      (Position.getvalue ⟨"a", 2, 3, 9⟩ = (3 : ℚ) * ((2 : Int) : ℚ) ∧
        (Position.htmlcellsList ⟨"a", 2, 3, 9⟩)[1]? = some (tools.cell (intRepr 2)))) ∧
    (Position.getvalue ⟨"a", 2, 0, 9⟩ = (9 : ℚ) ∧
      (Position.htmlcellsList ⟨"a", 2, 0, 9⟩)[1]? = some (tools.cell "")) :=
  ⟨⟨by norm_num, (claim_C2 ⟨"a", 2, 3, 9⟩).1 (by norm_num)⟩,
    (claim_C2 ⟨"a", 2, 0, 9⟩).2 rfl⟩

/-- C4: after removing spaces the IBAN setter stores the input exactly
when it is 20 digits, and stores the empty string otherwise; it never
raises (it is a total function of the embedded value). -/
theorem claim_C4 (a : Abrechnung) (v : PyVal) :
    ((stripSpaces (pyStr v)).length = 20 ∧
        (stripSpaces (pyStr v)).data.all Char.isDigit →
      (a.setaccountiban v).iban = stripSpaces (pyStr v)) ∧
    (¬((stripSpaces (pyStr v)).length = 20 ∧
        (stripSpaces (pyStr v)).data.all Char.isDigit) →
      (a.setaccountiban v).iban = "") := by
  refine ⟨fun h => ?_, fun h => ?_⟩
  · simp only [Abrechnung.setaccountiban]
    rw [if_pos h]
  · simp only [Abrechnung.setaccountiban]
    rw [if_neg h]

/-- Witness for C4: a valid IBAN with embedded spaces is stored
stripped; a malformed one is stored as the empty string. -/
theorem claim_C4_witness :
    (Abrechnung.init.setaccountiban (.str "1234 5678 9012 3456 7890")).iban =
        "12345678901234567890" ∧
    (Abrechnung.init.setaccountiban (.str "DE123")).iban = "" :=
  ⟨((claim_C4 Abrechnung.init (.str "1234 5678 9012 3456 7890")).1 (by decide)).trans
      (by decide),
    (claim_C4 Abrechnung.init (.str "DE123")).2 (by decide)⟩

/-- C3 counterexample: the unit-count setter raises `ValueError` on the
input `"abc"` (Python `int("abc")` raises), so not every setter input
is coerced or silently defaulted. -/
theorem claim_C3_counterexample :
    raises (Position.setunitcount Position.mkDefault (.str "abc")) = true := by
  decide

/-- C3 amended: `setname` always succeeds and stores `str(value)`; the
numeric setters succeed exactly when the `int(...)`/`float(...)`
coercion does (raising otherwise), and on success they store the
coerced value, `setunitcount` clamping to a minimum of 1. -/
theorem claim_C3_amended (p : Position) (v : PyVal) :
    (Position.setname p v).name = pyStr v ∧
    raises (p.setunitcount v) = raises (pyInt? v) ∧
    raises (p.setunitprice v) = raises (pyFloat? v) ∧
    raises (p.setvalue v) = raises (pyFloat? v) ∧
    raises (p.setminusvalue v) = raises (pyFloat? v) ∧
    (∀ n : Int, pyInt? v = .ok n →
      p.setunitcount v = .ok { p with unitcount := if n < 1 then 1 else n }) ∧
    (∀ q : ℚ, pyFloat? v = .ok q →
      p.setunitprice v = .ok { p with unitprice := q }) ∧
    (∀ q : ℚ, pyFloat? v = .ok q →
      p.setvalue v = .ok { p with value := q }) := by
  refine ⟨rfl, ?_, ?_, ?_, ?_, ?_, ?_, ?_⟩
  · cases h : pyInt? v <;> simp [Position.setunitcount, raises, Except.map, h]
  · cases h : pyFloat? v <;> simp [Position.setunitprice, raises, Except.map, h]
  · cases h : pyFloat? v <;> simp [Position.setvalue, raises, Except.map, h]
  · cases h : pyFloat? v <;> simp [Position.setminusvalue, raises, Except.map, h]
  · intro n hn
    simp [Position.setunitcount, hn, Except.map]
  · intro q hq
    simp [Position.setunitprice, hq, Except.map]
  · intro q hq
    simp [Position.setvalue, hq, Except.map]

/-- Witness for C3 amended: concrete coercible inputs. -/
theorem claim_C3_witness :
    Position.setunitcount Position.mkDefault (.int 5) =
        .ok { Position.mkDefault with unitcount := if (5 : Int) < 1 then 1 else 5 } ∧
    Position.setunitprice Position.mkDefault (.int 3) =
        .ok { Position.mkDefault with unitprice := ((3 : Int) : ℚ) } :=
  ⟨(claim_C3_amended Position.mkDefault (.int 5)).2.2.2.2.2.1 5 rfl,
    (claim_C3_amended Position.mkDefault (.int 3)).2.2.2.2.2.2.1 ((3 : Int) : ℚ) rfl⟩

/-- C9: the stored unit count is at least 1 after construction and
stays so under any sequence of setter calls; an input coercing to an
integer at most 0 is clamped to exactly 1. -/
theorem claim_C9 :
    (∀ (p p' : Position) (v : PyVal), p.setunitcount v = .ok p' →
      1 ≤ p'.unitcount) ∧
    (∀ (p p' : Position) (v : PyVal) (n : Int), pyInt? v = .ok n → n ≤ 0 →
      p.setunitcount v = .ok p' → p'.unitcount = 1) ∧
    (∀ (nv cv pv vv : PyVal) (p : Position), Position.init nv cv pv vv = .ok p →
      1 ≤ p.unitcount) ∧
    Position.mkDefault.unitcount = 1 ∧
    (∀ (p : Position) (calls : List SetterCall), 1 ≤ p.unitcount →
      1 ≤ (Position.applySetters p calls).unitcount) := by
  have hcount : ∀ (p p' : Position) (v : PyVal), p.setunitcount v = .ok p' →
      1 ≤ p'.unitcount := by
    intro p p' v h
    cases hi : pyInt? v with
    | ok n =>
      rw [Position.setunitcount, hi] at h
      simp [Except.map] at h
      subst h
      by_cases hn : n < 1 <;> simp [hn] <;> omega
    | error e => rw [Position.setunitcount, hi] at h; simp [Except.map] at h
  have hprice : ∀ (p p' : Position) (v : PyVal), p.setunitprice v = .ok p' →
      p'.unitcount = p.unitcount := by
    intro p p' v h
    cases hi : pyFloat? v with
    | ok q =>
      rw [Position.setunitprice, hi] at h
      simp [Except.map] at h
      subst h; rfl
    | error e => rw [Position.setunitprice, hi] at h; simp [Except.map] at h
  have hvalue : ∀ (p p' : Position) (v : PyVal), p.setvalue v = .ok p' →
      p'.unitcount = p.unitcount := by
    intro p p' v h
    cases hi : pyFloat? v with
    | ok q =>
      rw [Position.setvalue, hi] at h
      simp [Except.map] at h
      subst h; rfl
    | error e => rw [Position.setvalue, hi] at h; simp [Except.map] at h
  have hminus : ∀ (p p' : Position) (v : PyVal), p.setminusvalue v = .ok p' →
      p'.unitcount = p.unitcount := by
    intro p p' v h
    cases hi : pyFloat? v with
    | ok q =>
      rw [Position.setminusvalue, hi] at h
      simp [Except.map] at h
      subst h; rfl
    | error e => rw [Position.setminusvalue, hi] at h; simp [Except.map] at h
  refine ⟨hcount, ?_, ?_, rfl, ?_⟩
  · intro p p' v n hn hle h
    rw [Position.setunitcount, hn] at h
    simp [Except.map] at h
    subst h
    simp [show n < 1 by omega]
  · intro nv cv pv vv p h
    rw [Position.init] at h
    cases h1 : Position.setunitcount (Position.setname ⟨"", 1, 0, 0⟩ nv) cv with
    | ok p1 =>
      rw [h1] at h
      simp [Except.bind] at h
      cases h2 : Position.setunitprice p1 pv with
      | ok p2 =>
        rw [h2] at h
        simp at h
        have e2 := hprice _ _ _ h2
        have e3 := hvalue _ _ _ h
        have := hcount _ _ _ h1
        omega
      | error e => rw [h2] at h; simp at h
    | error e => rw [h1] at h; simp [Except.bind] at h
  · intro p calls
    induction calls generalizing p with
    | nil => intro h; simpa [Position.applySetters] using h
    | cons c rest ih =>
      intro h
      rw [Position.applySetters, List.foldl_cons]
      apply ih
      cases c with
      | name v => simpa [Position.applySetter, Position.setname] using h
      | unitcount v =>
        rw [Position.applySetter]
        cases hs : p.setunitcount v with
        | ok q => exact hcount _ _ _ hs
        | error e => exact h
      | unitprice v =>
        rw [Position.applySetter]
        cases hs : p.setunitprice v with
        | ok q => rw [hprice _ _ _ hs]; exact h
        | error e => exact h
      | value v =>
        rw [Position.applySetter]
        cases hs : p.setvalue v with
        | ok q => rw [hvalue _ _ _ hs]; exact h
        | error e => exact h
      | minusvalue v =>
        rw [Position.applySetter]
        cases hs : p.setminusvalue v with
        | ok q => rw [hminus _ _ _ hs]; exact h
        | error e => exact h

/-- Witness for C9: a negative unit count is clamped to 1, and a setter
sequence keeps the invariant. -/
theorem claim_C9_witness :
    1 ≤ (Position.applySetters Position.mkDefault
        [SetterCall.unitcount (.int (-5)), SetterCall.name (.str "x")]).unitcount :=
  claim_C9.2.2.2.2 Position.mkDefault
    [SetterCall.unitcount (.int (-5)), SetterCall.name (.str "x")] (by decide)

/-- For one position, income minus cost equals the derived value. -/
theorem position_income_sub_cost (p : Position) :
    p.getincome - p.getcost = p.getvalue := by
  rw [Position.getincome, Position.getcost]
  rcases le_total 0 p.getvalue with h | h
  · rw [max_eq_right h, max_eq_left (by linarith)]
    ring
  · rw [max_eq_left h, max_eq_right (by linarith)]
    ring

/-- C10: for every `Abrechnung`, total equals income minus cost; the
donation term appears in `gettotal` exactly as in `getincome`, so it
cancels in the identity. -/
theorem claim_C10 (a : Abrechnung) : a.gettotal = a.getincome - a.getcost := by
  have h0 := position_income_sub_cost (a.positions 0)
  have h1 := position_income_sub_cost (a.positions 1)
  have h2 := position_income_sub_cost (a.positions 2)
  have h3 := position_income_sub_cost (a.positions 3)
  have h4 := position_income_sub_cost (a.positions 4)
  have h5 := position_income_sub_cost (a.positions 5)
  have h6 := position_income_sub_cost (a.positions 6)
  have hl : (List.finRange 7) = [0, 1, 2, 3, 4, 5, 6] := rfl
  rw [Abrechnung.gettotal, Abrechnung.getincome, Abrechnung.getcost, hl]
  simp only [List.foldl_cons, List.foldl_nil]
  linarith

/-- C1 counterexample: with donations set to 5 and all positions empty,
`gettotal` returns 5, not the bare position sum 0 — donations are folded
into `total` by the code. -/
theorem claim_C1_counterexample :
    ¬ ({ Abrechnung.init with donations := 5 } : Abrechnung).gettotal =
        ∑ i : Fin 7,
          (({ Abrechnung.init with donations := 5 } : Abrechnung).positions i).getvalue := by
  have hl : (List.finRange 7) = [0, 1, 2, 3, 4, 5, 6] := rfl
  rw [Abrechnung.gettotal, hl]
  simp only [List.foldl_cons, List.foldl_nil, Fin.sum_univ_seven]
  norm_num [Abrechnung.init, Position.mkDefault, Position.getvalue]

/-- C1 amended: `income` is the sum of the positions' income plus
donations and `cost` is the sum of the positions' cost, as claimed; but
`total` is the sum of the positions' derived values plus donations
(donations are folded in). -/
theorem claim_C1_amended (a : Abrechnung) :
    a.getincome = (∑ i : Fin 7, (a.positions i).getincome) + a.donations ∧
    a.getcost = ∑ i : Fin 7, (a.positions i).getcost ∧
    a.gettotal = (∑ i : Fin 7, (a.positions i).getvalue) + a.donations := by
  have hl : (List.finRange 7) = [0, 1, 2, 3, 4, 5, 6] := rfl
  refine ⟨?_, ?_, ?_⟩
  · rw [Abrechnung.getincome, hl]
    simp only [List.foldl_cons, List.foldl_nil, Fin.sum_univ_seven]
    ring
  · rw [Abrechnung.getcost, hl]
    simp only [List.foldl_cons, List.foldl_nil, Fin.sum_univ_seven]
    ring
  · rw [Abrechnung.gettotal, hl]
    simp only [List.foldl_cons, List.foldl_nil, Fin.sum_univ_seven]
    ring

/-- C8: the boolean conversion of an `Abrechnung` is true iff some
position is non-empty or donations are positive (for the reachable
records, whose donations are never negative); a position is empty iff
name, unit price and stored value are all unset; a fresh record is
false and setting one position's name makes it true. -/
theorem claim_C8 :
    (∀ a : Abrechnung, 0 ≤ a.donations →
      (a.toBool = true ↔
        (∃ i : Fin 7, (a.positions i).toBool = true) ∨ 0 < a.donations)) ∧
    (∀ p : Position, p.toBool = false ↔
      (p.name = "" ∧ p.unitprice = 0 ∧ p.value = 0)) ∧
    Abrechnung.init.toBool = false ∧
    (∀ (i : Fin 7) (s : String), s ≠ "" →
      (Abrechnung.init.withPosition i
        ((Abrechnung.init.positions i).setname (.str s))).toBool = true) := by
  refine ⟨?_, ?_, ?_, ?_⟩
  · intro a ha
    rw [Abrechnung.toBool]
    simp only [Bool.or_eq_true, List.any_eq_true, List.mem_finRange, true_and,
      decide_eq_true_eq]
    exact or_congr Iff.rfl
      ⟨fun hne => lt_of_le_of_ne ha (Ne.symm hne), fun hlt => (ne_of_gt hlt)⟩
  · intro p
    rw [Position.toBool]
    simp [not_or]
  · rw [Abrechnung.toBool]
    simp [Abrechnung.init, Position.mkDefault, Position.toBool]
  · intro i s hs
    rw [Abrechnung.toBool]
    simp only [Bool.or_eq_true, List.any_eq_true, List.mem_finRange, true_and]
    refine Or.inl ⟨i, ?_⟩
    simp [Abrechnung.withPosition, Function.update_same, Position.setname,
      Position.toBool, pyStr, hs]

/-- Witness for C8: the fresh record satisfies the iff, and setting the
first position's name to `"x"` makes the record true. -/
theorem claim_C8_witness :
    (Abrechnung.init.toBool = true ↔
      (∃ i : Fin 7, (Abrechnung.init.positions i).toBool = true) ∨
        0 < Abrechnung.init.donations) ∧
    (Abrechnung.init.withPosition 0
      ((Abrechnung.init.positions 0).setname (.str "x"))).toBool = true :=
  ⟨claim_C8.1 Abrechnung.init (by norm_num [Abrechnung.init]),
    claim_C8.2.2.2 0 "x" (by decide)⟩

/-- A decimal digit is not Python whitespace. -/
theorem not_space_of_digit {c : Char} (h : c.isDigit = true) : isPySpace c = false := by
  rw [isPySpace]
  have h1 : c ≠ ' ' := fun e => by rw [e] at h; exact absurd h (by decide)
  have h2 : c ≠ '\t' := fun e => by rw [e] at h; exact absurd h (by decide)
  have h3 : c ≠ '\n' := fun e => by rw [e] at h; exact absurd h (by decide)
  have h4 : c ≠ '\r' := fun e => by rw [e] at h; exact absurd h (by decide)
  simp [beq_eq_false_iff_ne, h1, h2, h3, h4]

/-- `dropWhile` is the identity when no element satisfies the test. -/
theorem dropWhile_eq_self_of_none {p : Char → Bool} {l : List Char}
    (h : ∀ c ∈ l, p c = false) : List.dropWhile p l = l := by
  cases l with
  | nil => rfl
  | cons c r => simp [List.dropWhile_cons, h c (by simp)]

/-- Stripping whitespace from an all-digit list changes nothing. -/
theorem stripChars_of_digits {l : List Char} (h : l.all Char.isDigit) :
    stripChars l = l := by
  have hns : ∀ c ∈ l, isPySpace c = false := by
    intro c hc
    exact not_space_of_digit (by simpa using List.all_eq_true.mp h c hc)
  rw [stripChars, dropWhile_eq_self_of_none hns,
    dropWhile_eq_self_of_none (by simpa using hns), List.reverse_reverse]

/-- `int(...)` on a nonempty all-digit string returns its value. -/
theorem pyIntOfChars_digits {l : List Char} (hne : l ≠ [])
    (hd : l.all Char.isDigit) : pyIntOfChars l = .ok (digitsVal l) := by
  rw [pyIntOfChars]
  simp only [stripChars_of_digits hd]
  have hall : ∀ c ∈ l, c.isDigit = true := List.all_eq_true.mp hd
  split
  · exact absurd (hall '-' (by simp)) (by decide)
  · exact absurd (hall '+' (by simp)) (by decide)
  · rw [if_pos ⟨hne, hd⟩]

/-- `splitChar` never returns the empty list of parts. -/
theorem splitChar_ne_nil (sep : Char) (l : List Char) : splitChar sep l ≠ [] := by
  cases l with
  | nil => simp [splitChar]
  | cons c r =>
    rw [splitChar]
    cases hs : splitChar sep r with
    | nil => simp
    | cons x t =>
      split
      · simp
      · split <;> simp

/-- Splitting a separator-free list yields that one part. -/
theorem splitChar_not_mem {sep : Char} {l : List Char} (h : sep ∉ l) :
    splitChar sep l = [l] := by
  induction l with
  | nil => rfl
  | cons c r ih =>
    rw [splitChar, ih (fun hm => h (List.mem_cons_of_mem c hm))]
    show (if c = sep then [[], r] else [c :: r]) = [c :: r]
    rw [if_neg (fun e => h (by rw [← e]; exact List.mem_cons_self c r))]

/-- Splitting `a ++ sep :: b` with `sep ∉ a` peels off the part `a`. -/
theorem splitChar_append {sep : Char} {a : List Char} (b : List Char)
    (h : sep ∉ a) : splitChar sep (a ++ sep :: b) = a :: splitChar sep b := by
  induction a with
  | nil =>
    rw [List.nil_append, splitChar]
    cases hs : splitChar sep b with
    | nil => exact absurd hs (splitChar_ne_nil sep b)
    | cons x t =>
      show (if sep = sep then [] :: x :: t else (sep :: x) :: t) = [] :: x :: t
      rw [if_pos rfl]
  | cons c r ih =>
    rw [List.cons_append, splitChar, ih (fun hm => h (List.mem_cons_of_mem c hm))]
    show (if c = sep then [] :: r :: splitChar sep b else (c :: r) :: splitChar sep b)
      = (c :: r) :: splitChar sep b
    rw [if_neg (fun e => h (by rw [← e]; exact List.mem_cons_self c r))]

/-- A digit character is not the dash separator. -/
theorem dash_not_mem_of_digits {l : List Char} (h : l.all Char.isDigit) :
    '-' ∉ l := by
  intro hm
  exact absurd (List.all_eq_true.mp h '-' hm) (by decide)

/-- C6: the project-date setter stores a date value directly; a
`YYYY-MM-DD` string with valid numeric in-range parts is parsed and
stored as that date; any parse failure (wrong format, non-numeric
parts, out-of-range date) clears the date to unset — the bare
`except:` means no exception ever reaches the caller (the embedded
setter is a total function). -/
theorem claim_C6 :
    (∀ (a : Abrechnung) (d : PyDate),
      (a.setprojectdate (.date d)).projectdate = some d) ∧
    (∀ a : Abrechnung,
      (a.setprojectdate (.str "2024-05-01")).projectdate = some ⟨2024, 5, 1⟩) ∧
    (∀ a : Abrechnung,
      (a.setprojectdate (.str "not-a-date")).projectdate = Option.none) ∧
    (∀ a : Abrechnung,
      (a.setprojectdate (.str "2024-13-99")).projectdate = Option.none) ∧
    (∀ (a : Abrechnung) (ys ms ds : List Char) (dt : PyDate),
      ys ≠ [] → ys.all Char.isDigit → ms ≠ [] → ms.all Char.isDigit →
      ds ≠ [] → ds.all Char.isDigit →
      PyDate.make (digitsVal ys) (digitsVal ms) (digitsVal ds) = some dt →
      (a.setprojectdate (.str (String.mk (ys ++ '-' :: (ms ++ '-' :: ds))))).projectdate
        = some dt) := by
  refine ⟨fun a d => rfl, fun a => rfl, fun a => rfl, fun a => rfl, ?_⟩
  intro a ys ms ds dt hy hyd hm hmd hd hdd hmk
  rw [Abrechnung.setprojectdate]
  simp only [pyStr]
  rw [splitChar_append _ (dash_not_mem_of_digits hyd),
    splitChar_append _ (dash_not_mem_of_digits hmd),
    splitChar_not_mem (dash_not_mem_of_digits hdd)]
  simp [pyIntOfChars_digits hy hyd, pyIntOfChars_digits hm hmd,
    pyIntOfChars_digits hd hdd, Except.toOption, hmk]
  exact fun d h => by cases h

/-- Witness for C6: the general parsing clause at `"1999-12-31"`. -/
theorem claim_C6_witness :
    (Abrechnung.init.setprojectdate
      (.str (String.mk ("1999".data ++ '-' :: ("12".data ++ '-' :: "31".data))))).projectdate
      = some ⟨1999, 12, 31⟩ :=
  claim_C6.2.2.2.2 Abrechnung.init "1999".data "12".data "31".data ⟨1999, 12, 31⟩
    (by decide) (by decide) (by decide) (by decide) (by decide) (by decide) (by decide)

/-- Inserting a space at `i` into a list `l.take k ++ rest` with
`i ≤ k ≤ l.length` splits the prefix at `i`. -/
theorem insertSpace_take_append (l rest : List Char) (k i : Nat) (hik : i ≤ k)
    (hk : k ≤ l.length) :
    Abrechnung.insertSpace (l.take k ++ rest) i =
      l.take i ++ ' ' :: ((l.drop i).take (k - i) ++ rest) := by
  rw [Abrechnung.insertSpace, List.take_append_eq_append_take,
    List.drop_append_eq_append_drop, List.take_take, List.drop_take,
    List.length_take]
  rw [min_eq_left hik, min_eq_left hk, Nat.sub_eq_zero_of_le hik]
  simp

/-- The IBAN getter's five insertions on a 20-character list produce the
fixed 2·4·4·4·4·2 grouping. -/
theorem iban_foldl (l : List Char) (h : l.length = 20) :
    [18, 14, 10, 6, 2].foldl Abrechnung.insertSpace l =
      l.take 2 ++ ' ' :: ((l.drop 2).take 4 ++ ' ' :: ((l.drop 6).take 4 ++ ' '
        :: ((l.drop 10).take 4 ++ ' ' :: ((l.drop 14).take 4 ++ ' '
        :: l.drop 18)))) := by
  have h20 : l.take 20 ++ ([] : List Char) = l := by
    rw [List.append_nil]
    exact List.take_of_length_le (by omega)
  have e1 : Abrechnung.insertSpace l 18 = l.take 18 ++ (' ' :: l.drop 18) := by
    conv_lhs => rw [← h20]
    rw [insertSpace_take_append l [] 20 18 (by omega) (by omega)]
    simp only [show (20 : ℕ) - 18 = 2 from rfl, List.append_nil]
    rw [List.take_of_length_le (show (l.drop 18).length ≤ 2 by simp [h])]
  have e2 : Abrechnung.insertSpace (l.take 18 ++ (' ' :: l.drop 18)) 14 =
      l.take 14 ++ (' ' :: ((l.drop 14).take 4 ++ (' ' :: l.drop 18))) := by
    rw [insertSpace_take_append l _ 18 14 (by omega) (by omega)]
  have e3 : Abrechnung.insertSpace
        (l.take 14 ++ (' ' :: ((l.drop 14).take 4 ++ (' ' :: l.drop 18)))) 10 =
      l.take 10 ++ (' ' :: ((l.drop 10).take 4 ++ (' ' :: ((l.drop 14).take 4
        ++ (' ' :: l.drop 18))))) := by
    rw [insertSpace_take_append l _ 14 10 (by omega) (by omega)]
  have e4 : Abrechnung.insertSpace
        (l.take 10 ++ (' ' :: ((l.drop 10).take 4 ++ (' ' :: ((l.drop 14).take 4
          ++ (' ' :: l.drop 18)))))) 6 =
      l.take 6 ++ (' ' :: ((l.drop 6).take 4 ++ (' ' :: ((l.drop 10).take 4
        ++ (' ' :: ((l.drop 14).take 4 ++ (' ' :: l.drop 18))))))) := by
    rw [insertSpace_take_append l _ 10 6 (by omega) (by omega)]
  have e5 : Abrechnung.insertSpace
        (l.take 6 ++ (' ' :: ((l.drop 6).take 4 ++ (' ' :: ((l.drop 10).take 4
          ++ (' ' :: ((l.drop 14).take 4 ++ (' ' :: l.drop 18)))))))) 2 =
      l.take 2 ++ (' ' :: ((l.drop 2).take 4 ++ (' ' :: ((l.drop 6).take 4
        ++ (' ' :: ((l.drop 10).take 4 ++ (' ' :: ((l.drop 14).take 4
        ++ (' ' :: l.drop 18))))))))) := by
    rw [insertSpace_take_append l _ 6 2 (by omega) (by omega)]
  show Abrechnung.insertSpace (Abrechnung.insertSpace (Abrechnung.insertSpace
      (Abrechnung.insertSpace (Abrechnung.insertSpace l 18) 14) 10) 6) 2 = _
  rw [e1, e2, e3, e4, e5]

/-- C5 counterexample: storing `"12345678901234567890"` and reading it
back with spaces gives `"12 3456 7890 1234 5678 90"` (the spacing of a
German IBAN whose leading `DE` completes the first block), not the
claimed `"1234 5678 9012 3456 7890"`. -/
theorem claim_C5_counterexample :
    (Abrechnung.init.setaccountiban
        (.str "12345678901234567890")).getaccountiban true
      ≠ "1234 5678 9012 3456 7890" ∧
    (Abrechnung.init.setaccountiban
        (.str "12345678901234567890")).getaccountiban true
      = "12 3456 7890 1234 5678 90" := by
  constructor <;> decide

/-- C5 amended: a stored valid 20-digit IBAN read back without spaces is
exactly the stripped digit string; read back with spaces it carries a
space at the offsets 18, 14, 10, 6, 2, i.e. groups of 2,4,4,4,4,2
digits; the insertion is cosmetic — stripping the spaces recovers the
digit string. -/
theorem claim_C5_amended (a : Abrechnung) (v : PyVal) (d : String)
    (hd : stripSpaces (pyStr v) = d) (hlen : d.length = 20)
    (hdig : d.data.all Char.isDigit) :
    (a.setaccountiban v).getaccountiban false = d ∧
    (a.setaccountiban v).getaccountiban true =
      String.mk (d.data.take 2 ++ ' ' :: ((d.data.drop 2).take 4 ++ ' '
        :: ((d.data.drop 6).take 4 ++ ' ' :: ((d.data.drop 10).take 4 ++ ' '
        :: ((d.data.drop 14).take 4 ++ ' ' :: d.data.drop 18))))) ∧
    stripSpaces ((a.setaccountiban v).getaccountiban true) = d := by
  have hset : (a.setaccountiban v).iban = d := by
    rw [Abrechnung.setaccountiban]
    simp only [hd]
    rw [if_pos ⟨hlen, hdig⟩]
  have hdata : d.data.length = 20 := hlen
  have hget : (a.setaccountiban v).getaccountiban true =
      String.mk (d.data.take 2 ++ ' ' :: ((d.data.drop 2).take 4 ++ ' '
        :: ((d.data.drop 6).take 4 ++ ' ' :: ((d.data.drop 10).take 4 ++ ' '
        :: ((d.data.drop 14).take 4 ++ ' ' :: d.data.drop 18))))) := by
    rw [Abrechnung.getaccountiban]
    simp only [hset, Abrechnung.IBANSPACES]
    rw [if_pos (by refine ⟨trivial, ?_⟩; rw [hlen]; decide),
      iban_foldl d.data hdata]
  refine ⟨?_, hget, ?_⟩
  · rw [Abrechnung.getaccountiban]
    simp only [hset]
    rw [if_neg (by simp)]
  · rw [hget]
    have hdigall : ∀ c ∈ d.data, c.isDigit = true := List.all_eq_true.mp hdig
    have hfil : ∀ m : List Char, (∀ c ∈ m, c ∈ d.data) →
        m.filter (fun c => decide (c ≠ ' ')) = m := by
      intro m hm
      refine List.filter_eq_self.mpr fun c hc => ?_
      have hcd : c.isDigit = true := hdigall c (hm c hc)
      simp only [decide_eq_true_eq]
      intro e
      rw [e] at hcd
      exact absurd hcd (by decide)
    have hstep : ∀ A X : List Char, (∀ c ∈ A, c ∈ d.data) →
        (A ++ ' ' :: X).filter (fun c => decide (c ≠ ' ')) =
          A ++ X.filter (fun c => decide (c ≠ ' ')) := by
      intro A X hA
      rw [List.filter_append, hfil A hA, List.filter_cons]
      simp
    refine String.ext ?_
    show (d.data.take 2 ++ ' ' :: ((d.data.drop 2).take 4 ++ ' '
        :: ((d.data.drop 6).take 4 ++ ' ' :: ((d.data.drop 10).take 4 ++ ' '
        :: ((d.data.drop 14).take 4 ++ ' '
        :: d.data.drop 18))))).filter (fun c => decide (c ≠ ' ')) = d.data
    rw [hstep _ _ (fun c hc => List.take_subset 2 d.data hc),
      hstep _ _ (fun c hc =>
        List.drop_subset 2 d.data (List.take_subset 4 (d.data.drop 2) hc)),
      hstep _ _ (fun c hc =>
        List.drop_subset 6 d.data (List.take_subset 4 (d.data.drop 6) hc)),
      hstep _ _ (fun c hc =>
        List.drop_subset 10 d.data (List.take_subset 4 (d.data.drop 10) hc)),
      hstep _ _ (fun c hc =>
        List.drop_subset 14 d.data (List.take_subset 4 (d.data.drop 14) hc)),
      hfil _ (fun c hc => List.drop_subset 18 d.data hc)]
    have hEF : (d.data.drop 14).take 4 ++ d.data.drop 18 = d.data.drop 14 := by
      conv_lhs => rw [show (18 : ℕ) = 14 + 4 from rfl, ← List.drop_drop]
      exact List.take_append_drop 4 (d.data.drop 14)
    have hDE : (d.data.drop 10).take 4 ++ d.data.drop 14 = d.data.drop 10 := by
      conv_lhs => rw [show (14 : ℕ) = 10 + 4 from rfl, ← List.drop_drop]
      exact List.take_append_drop 4 (d.data.drop 10)
    have hCD : (d.data.drop 6).take 4 ++ d.data.drop 10 = d.data.drop 6 := by
      conv_lhs => rw [show (10 : ℕ) = 6 + 4 from rfl, ← List.drop_drop]
      exact List.take_append_drop 4 (d.data.drop 6)
    have hBC : (d.data.drop 2).take 4 ++ d.data.drop 6 = d.data.drop 2 := by
      conv_lhs => rw [show (6 : ℕ) = 2 + 4 from rfl, ← List.drop_drop]
      exact List.take_append_drop 4 (d.data.drop 2)
    rw [hEF, hDE, hCD, hBC, List.take_append_drop]

/-- Witness for C5 amended: a concrete valid IBAN entered with spaces
round-trips to the grouped form and back. -/
theorem claim_C5_witness :
    (Abrechnung.init.setaccountiban
        (.str "12 3456 7890 1234 5678 90")).getaccountiban false
      = "12345678901234567890" ∧
    (Abrechnung.init.setaccountiban
        (.str "12 3456 7890 1234 5678 90")).getaccountiban true
      = "12 3456 7890 1234 5678 90" ∧
    stripSpaces ((Abrechnung.init.setaccountiban
        (.str "12 3456 7890 1234 5678 90")).getaccountiban true)
      = "12345678901234567890" :=
  have h := claim_C5_amended Abrechnung.init (.str "12 3456 7890 1234 5678 90")
    "12345678901234567890" (by decide) (by decide) (by decide)
  ⟨h.1, h.2.1.trans (by decide), h.2.2⟩

/-- C7: `_fill_positions` ignores its section text and emits exactly 7
rows; each row starts with the 1-based index cell and then carries the
5 `htmlcells` cells plus 2 empty cells when an `Abrechnung` is given,
or 7 empty cells when not — 8 cells per row either way. -/
theorem claim_C7 (t₁ t₂ : String) (input : Option Abrechnung) :
    HTMLPrinter.fill_positions t₁ input = HTMLPrinter.fill_positions t₂ input ∧
    HTMLPrinter.fill_positions t₁ input =
      String.join ((List.range 7).map (HTMLPrinter.positionRow input)) ∧
    ((List.range 7).map (HTMLPrinter.positionRow input)).length = 7 ∧
    (∀ (a : Abrechnung) (i : Fin 7), input = some a →
      HTMLPrinter.positionRow input i.val =
        tabs 4 ++ "<tr>" ++ "\n" ++ tabs 5
          ++ joinWith ("\n" ++ tabs 5)
              (tools.cell (natRepr (i.val + 1)) :: Position.htmlcellsList (a.positions i))
          ++ "\n" ++ tabs 5 ++ joinWith "" (List.replicate 2 (tools.cell ""))
          ++ "\n" ++ tabs 4 ++ "</tr>" ++ "\n") ∧
    (input = Option.none → ∀ i : Fin 7,
      HTMLPrinter.positionRow input i.val =
        tabs 4 ++ "<tr>" ++ "\n" ++ tabs 5 ++ tools.cell (natRepr (i.val + 1))
          ++ "\n" ++ tabs 5 ++ joinWith "" (List.replicate 7 (tools.cell ""))
          ++ "\n" ++ tabs 4 ++ "</tr>" ++ "\n") ∧
    (∀ (a : Abrechnung) (i : Fin 7),
      (tools.cell (natRepr (i.val + 1)) :: (Position.htmlcellsList (a.positions i)
        ++ [tools.cell "", tools.cell ""])).length = 8) ∧
    (∀ i : Fin 7,
      (tools.cell (natRepr (i.val + 1)) :: List.replicate 7 (tools.cell "")).length = 8) := by
  refine ⟨rfl, rfl, by simp, ?_, ?_, ?_, ?_⟩
  · intro a i hin
    subst hin
    rw [HTMLPrinter.positionRow]
    simp only [dif_pos i.isLt]
    simp [Position.htmlcells, Position.htmlcellsList, joinWith, sRep,
      String.append_assoc, String.append_empty, String.empty_append]
  · intro hin i
    subst hin
    rw [HTMLPrinter.positionRow]
    simp [joinWith, sRep, String.append_assoc, String.append_empty,
      String.empty_append]
  · intro a i
    simp [Position.htmlcellsList]
  · intro i
    simp

/-- Witness for C7: the filled-row shape at the fresh record's first
position. -/
theorem claim_C7_witness :
    HTMLPrinter.positionRow (some Abrechnung.init) 0 =
      tabs 4 ++ "<tr>" ++ "\n" ++ tabs 5
        ++ joinWith ("\n" ++ tabs 5)
            (tools.cell (natRepr 1)
              :: Position.htmlcellsList (Abrechnung.init.positions 0))
        ++ "\n" ++ tabs 5 ++ joinWith "" (List.replicate 2 (tools.cell ""))
        ++ "\n" ++ tabs 4 ++ "</tr>" ++ "\n" :=
  (claim_C7 "" "" (some Abrechnung.init)).2.2.2.1 Abrechnung.init 0 rfl
